import Mathlib

/-!
Shallow embedding of `src/main.py` (class `PersonalLibraryManager`), a
SQLite-backed personal library manager.

The SQLite table `books(id INTEGER PRIMARY KEY AUTOINCREMENT, title, author,
year, genre, read INTEGER CHECK(read IN (0,1)))` is embedded as a list of
`Book` records in row (= rowid = insertion) order together with the
auto-increment counter `nextId`.  Each method of the Python class becomes a
pure function from the state, returning the new state and the method's
return value.

Modelling conventions:
* SQLite `TEXT` is `String`; Python/SQLite integers are `Int` (arbitrary
  precision, as in Python); row ids are `Nat`.
* `SELECT * FROM books` and plain table scans return rows in rowid order,
  which for this schema is the list order of the embedding.
* `cursor.fetchone()` on a scan is `List.find?`; `cursor.rowcount` after a
  `DELETE` is a `countP`; an `UPDATE ... WHERE` is a `List.map` that rewrites
  exactly the matching rows.
* SQL `LIKE` is embedded by `likeMatch` ('%' matches any sequence of
  characters, '_' matches exactly one, anything else matches literally).
  The two lowercasings the program applies are distinct and embedded
  separately: SQLite's `LOWER(..)` on the columns is ASCII-only and is
  embedded exactly by `sqliteLOWER`; Python's `query.lower()` on the query
  is full Unicode lowercasing and is embedded by `pythonLower`, which is
  exact only for ASCII queries (Python also lowercases non-ASCII cased
  letters, this model does not), so theorems about the literal-substring
  behaviour of `search_book` carry an ASCII-query hypothesis.
* Python's float percentage in `get_statistics` is embedded as an exact
  rational (`ℚ`).
* The `read_status` argument of `add_book` is the boolean supplied by the
  UI checkbox; Python's `int(read_status)` is `intOfBool`.
-/

/-- One row of the `books` table. -/
structure Book where
  id : Nat
  title : String
  author : String
  year : Int
  genre : String
  read : Int
deriving DecidableEq, Repr

/-- The persistent state of the store: the rows of `books` in rowid order,
plus the `AUTOINCREMENT` counter for the next id. -/
structure LibraryState where
  books : List Book
  nextId : Nat
deriving DecidableEq, Repr

/-- Python's `int(read_status)` applied to the UI's boolean checkbox value. -/
def intOfBool (b : Bool) : Int := if b then 1 else 0

/-- ASCII lowercasing: `'A'`-`'Z'` mapped to `'a'`-`'z'`, every other
character (including every non-ASCII character) unchanged. -/
def asciiLower (s : String) : String := String.mk (s.data.map Char.toLower)

/-- SQLite's `LOWER(x)`, applied by `search_book` to the `title` and `author`
columns.  SQLite's `LOWER` folds only the ASCII range, so `asciiLower` is an
exact embedding for every string. -/
def sqliteLOWER (s : String) : String := asciiLower s

/-- Python's `str.lower()`, applied by `search_book` to the query.  Python
lowercases the full Unicode range (e.g. `'É'` becomes `'é'`) while this
embedding, like SQLite, folds only ASCII, so it is exact exactly on ASCII
strings; theorems that rely on the query-side lowering therefore restrict
the query to ASCII. -/
def pythonLower (s : String) : String := asciiLower s

/-- SQL `LIKE` pattern matching: `'%'` matches any (possibly empty) sequence
of characters, `'_'` matches exactly one character, any other pattern
character matches itself.  SQLite's `LIKE` additionally folds ASCII case on
both sides; on every input this file feeds it — a pattern whose letters have
already been ASCII-lowercased and a string that has passed through `LOWER` —
that folding is the identity, so literal comparison embeds it exactly. -/
def likeMatch : List Char → List Char → Bool
  | [], s => s.isEmpty
  | p :: ps, s =>
    if p = '%' then s.tails.any (fun t => likeMatch ps t)
    else
      match s with
      | [] => false
      | c :: s' => (if p = '_' then true else p == c) && likeMatch ps s'

/-- The pattern `f"%{query.lower()}%"` built by `search_book`; the `lower()`
is Python's. -/
def likePattern (query : String) : List Char :=
  '%' :: (pythonLower query).data ++ ['%']

/-- The fresh table produced by `_create_table` on a new database file:
no rows, `AUTOINCREMENT` starting at 1. -/
def initial_state : LibraryState := ⟨[], 1⟩

/-- `add_book`: `INSERT INTO books (title, author, year, genre, read)
VALUES (?, ?, ?, ?, int(read_status))`.  The new row gets the next
auto-increment id and is appended at the end of the table. -/
def add_book (st : LibraryState) (title author : String) (year : Int)
    (genre : String) (read_status : Bool) : LibraryState :=
  { books := st.books ++ [⟨st.nextId, title, author, year, genre, intOfBool read_status⟩],
    nextId := st.nextId + 1 }

/-- `remove_book`: `DELETE FROM books WHERE title = ?`, returning
`cursor.rowcount > 0`. -/
def remove_book (st : LibraryState) (title : String) : LibraryState × Bool :=
  let rowcount := st.books.countP (fun b => b.title == title)
  ({ st with books := st.books.filter (fun b => !(b.title == title)) },
   decide (0 < rowcount))

/-- `search_book`: `SELECT * FROM books WHERE LOWER(title) LIKE ? OR
LOWER(author) LIKE ?` with both parameters bound to `f"%{query.lower()}%"`.
The columns go through SQLite's `LOWER`, the query through Python's
`lower()` — two different lowercasings. -/
def search_book (st : LibraryState) (query : String) : List Book :=
  st.books.filter (fun b =>
    likeMatch (likePattern query) (sqliteLOWER b.title).data ||
    likeMatch (likePattern query) (sqliteLOWER b.author).data)

/-- `mark_as_read_unread`: `SELECT read FROM books WHERE title = ?` and
`fetchone()` (the first matching row in rowid order); if a row was found,
`UPDATE books SET read = 1 - result[0] WHERE title = ?` (which rewrites
every row with that title) and return the new status, else return `None`. -/
def mark_as_read_unread (st : LibraryState) (title : String) :
    LibraryState × Option Int :=
  match st.books.find? (fun b => b.title == title) with
  | some row =>
    let new_status : Int := 1 - row.read
    ({ st with
       books := st.books.map (fun b =>
         if b.title == title then { b with read := new_status } else b) },
     some new_status)
  | none => (st, none)

/-- `get_library`: `SELECT * FROM books`, all rows in rowid order. -/
def get_library (st : LibraryState) : List Book := st.books

/-- `get_statistics`: `(COUNT(*), COUNT(* WHERE read = 1), read/total*100
if total else 0)`, the percentage embedded as an exact rational. -/
def get_statistics (st : LibraryState) : Nat × Nat × ℚ :=
  let total_books := st.books.length
  let read_books := st.books.countP (fun b => b.read == 1)
  (total_books, read_books,
   if total_books = 0 then 0 else (read_books : ℚ) / (total_books : ℚ) * 100)

/-- Well-formedness of a store state, as guaranteed by the schema: rowids are
strictly increasing along the table (`AUTOINCREMENT` assigns them in
insertion order), every id is below the auto-increment counter, and the
`CHECK(read IN (0,1))` constraint holds for every row. -/
def WF (st : LibraryState) : Prop :=
  st.books.Pairwise (fun a b => a.id < b.id) ∧
  (∀ b ∈ st.books, b.id < st.nextId) ∧
  (∀ b ∈ st.books, b.read = 0 ∨ b.read = 1)

instance (st : LibraryState) : Decidable (WF st) := by
  unfold WF; infer_instance

/-- Spec-side predicate: `q` occurs as a contiguous substring of `s`
(checked as: `q` is a prefix of some suffix of `s`). -/
def containsSub (q s : List Char) : Bool :=
  s.tails.any (fun t => q.isPrefixOf t)

/-- Spec-side predicate for `search`: the query occurs in the string as a
substring up to ASCII case folding — the spec's "case-insensitive
substring", with the only case folding the program applies (SQLite's
`LOWER`/`LIKE` fold ASCII only, and Python's `lower()` agrees on ASCII
queries). -/
def substrMatch (q s : String) : Bool :=
  containsSub (asciiLower q).data (asciiLower s).data

example : substrMatch "hobbit" "The Hobbit" = true := by decide
example : likeMatch (likePattern "%") ['D', 'u', 'n', 'e'] = true := by decide
example : search_book ⟨[⟨1, "The Hobbit", "Tolkien", 1937, "Fantasy", 0⟩], 2⟩ "hobbit" =
    [⟨1, "The Hobbit", "Tolkien", 1937, "Fantasy", 0⟩] := by decide

/-! ### Concrete states used by witnesses and counterexamples -/

/-- A one-row library: "Dune", unread. -/
def duneSt : LibraryState := ⟨[⟨1, "Dune", "Herbert", 1965, "Sci-Fi", 0⟩], 2⟩

/-- A one-row library: "Dune", already read. -/
def duneReadSt : LibraryState := ⟨[⟨1, "Dune", "Herbert", 1965, "Sci-Fi", 1⟩], 2⟩

/-- A two-row library in which both rows share the title "Dune" and both are
unread. -/
def dupSt : LibraryState :=
  ⟨[⟨1, "Dune", "Herbert", 1965, "Sci-Fi", 0⟩,
    ⟨2, "Dune", "Herbert", 1965, "Sci-Fi", 0⟩], 3⟩

/-- A one-row library: "The Hobbit", unread. -/
def hobbitSt : LibraryState := ⟨[⟨1, "The Hobbit", "Tolkien", 1937, "Fantasy", 0⟩], 2⟩

/-! ### LIKE-matching lemmas -/

lemma likeMatch_pct_single (s : List Char) : likeMatch ['%'] s = true := by
  simp only [likeMatch, if_pos]
  refine List.any_eq_true.mpr ⟨[], ?_, rfl⟩
  exact (List.mem_tails _ _).mpr List.nil_suffix

lemma likeMatch_pct_cons (p : List Char) (s : List Char)
    (h : ∀ t, likeMatch p t = true) : likeMatch ('%' :: p) s = true := by
  simp only [likeMatch, if_pos]
  exact List.any_eq_true.mpr ⟨s, (List.mem_tails _ _).mpr (List.suffix_refl s), h s⟩

/-- Matching a metacharacter-free pattern followed by a trailing `'%'` is
exactly a prefix test for the literal part. -/
lemma likeMatch_lit_pct (q : List Char) (hq : ∀ c ∈ q, c ≠ '%' ∧ c ≠ '_') :
    ∀ s : List Char, likeMatch (q ++ ['%']) s = q.isPrefixOf s := by
  induction q with
  | nil =>
    intro s
    rw [List.nil_append, likeMatch_pct_single]
    simp
  | cons a q ih =>
    intro s
    obtain ⟨ha1, ha2⟩ := hq a (List.mem_cons_self a q)
    have ihq : ∀ c ∈ q, c ≠ '%' ∧ c ≠ '_' := fun c hc => hq c (List.mem_cons_of_mem a hc)
    show likeMatch (a :: (q ++ ['%'])) s = (a :: q).isPrefixOf s
    simp only [likeMatch, if_neg ha1]
    cases s with
    | nil => rfl
    | cons c s' =>
      simp only [if_neg ha2, ih ihq s']
      rfl

/-- Matching the pattern `'%' ++ q ++ '%'` for metacharacter-free `q` is
exactly the substring test for `q`. -/
lemma likeMatch_wrap (q : List Char) (hq : ∀ c ∈ q, c ≠ '%' ∧ c ≠ '_')
    (s : List Char) : likeMatch ('%' :: q ++ ['%']) s = containsSub q s := by
  simp only [likeMatch, if_pos, containsSub]
  exact congrArg s.tails.any (funext fun t => likeMatch_lit_pct q hq t)

/-- `containsSub` coincides with Mathlib's contiguous-sublist relation. -/
lemma containsSub_iff_infix (q s : List Char) :
    containsSub q s = true ↔ q <:+: s := by
  unfold containsSub
  rw [List.any_eq_true, List.infix_iff_prefix_suffix]
  constructor
  · rintro ⟨t, ht, hp⟩
    exact ⟨t, List.isPrefixOf_iff_prefix.mp hp, (List.mem_tails _ _).mp ht⟩
  · rintro ⟨t, hp, ht⟩
    exact ⟨t, (List.mem_tails _ _).mpr ht, List.isPrefixOf_iff_prefix.mpr hp⟩

/-- C9, helper: the pattern built from the query `"%"` is `"%%%"` and matches
every string. -/
lemma likeMatch_pattern_pct (s : List Char) : likeMatch (likePattern "%") s = true := by
  have hp : likePattern "%" = ['%', '%', '%'] := rfl
  rw [hp]
  exact likeMatch_pct_cons _ _ fun t =>
    likeMatch_pct_cons _ _ fun t' => likeMatch_pct_single t'

/-- C9: queries containing the LIKE metacharacter `'%'` are interpreted as
patterns, not literal substrings: `search_book` with query `"%"` returns
every row of the table, whatever its title and author. -/
theorem search_book_percent_matches_all (st : LibraryState) :
    search_book st "%" = st.books := by
  unfold search_book
  refine List.filter_eq_self.mpr fun b _ => ?_
  rw [likeMatch_pattern_pct, Bool.true_or]

/-- C5, counterexample: for the query `"%"` on a store holding one row titled
"Dune" by "Herbert", `search_book` returns the row although neither the title
nor the author contains `"%"` as a (case-insensitive) substring. -/
theorem search_book_percent_counterexample :
    search_book duneSt "%" = duneSt.books ∧
    substrMatch "%" "Dune" = false ∧ substrMatch "%" "Herbert" = false := by
  refine ⟨?_, by decide, by decide⟩
  exact search_book_percent_matches_all duneSt

/-- C5, amended: for every ASCII query string (the region where the
embedding of Python's `lower()` is exact — for non-ASCII queries the program
lowercases the query but not the columns, so even an exact-title match can be
missed) that is free of the LIKE metacharacters `'%'` and `'_'` (ASCII
lowercasing does not produce or remove them), `search_book` returns exactly
the rows whose title or author contains the query as a substring up to ASCII
case folding.  The ASCII hypothesis scopes the claim to the region where the
embedding is exact; the model-level equality itself holds without it. -/
theorem search_book_literal_query_substring (st : LibraryState) (q : String)
    (_hq : ∀ c ∈ q.data, c.toNat < 128)
    (h : ∀ c ∈ (pythonLower q).data, c ≠ '%' ∧ c ≠ '_') :
    search_book st q =
      st.books.filter (fun b => substrMatch q b.title || substrMatch q b.author) := by
  unfold search_book
  refine List.filter_congr fun b _ => ?_
  unfold substrMatch likePattern pythonLower sqliteLOWER
  have h' : ∀ c ∈ (asciiLower q).data, c ≠ '%' ∧ c ≠ '_' := h
  rw [likeMatch_wrap _ h', likeMatch_wrap _ h']

/-- C5, witness: the query "hobbit" is ASCII and metacharacter-free and finds
the book titled "The Hobbit". -/
theorem search_book_literal_query_substring_witness :
    search_book hobbitSt "hobbit" =
      hobbitSt.books.filter
        (fun b => substrMatch "hobbit" b.title || substrMatch "hobbit" b.author) ∧
    search_book hobbitSt "hobbit" = hobbitSt.books :=
  ⟨search_book_literal_query_substring hobbitSt "hobbit" (by decide) (by decide),
   by decide⟩

/-! ### remove_book: C3, C4 -/

/-- C3: `remove_book` deletes exactly the rows whose title equals the argument
(string equality, order of the remaining rows preserved), never touches the
auto-increment counter, and returns `true` iff at least one row was deleted.
It is a total function: a missing title is not an error. -/
theorem remove_book_deletes_exact_matches (st : LibraryState) (t : String) :
    (remove_book st t).1.books = st.books.filter (fun b => decide (b.title ≠ t)) ∧
    (remove_book st t).1.nextId = st.nextId ∧
    ((remove_book st t).2 = true ↔ ∃ b ∈ st.books, b.title = t) := by
  refine ⟨?_, rfl, ?_⟩
  · show st.books.filter (fun b => !(b.title == t)) = _
    refine List.filter_congr fun b _ => ?_
    by_cases hbt : b.title = t <;> simp [hbt]
  · show decide (0 < st.books.countP (fun b => b.title == t)) = true ↔ _
    rw [decide_eq_true_eq, List.countP_pos_iff]
    constructor
    · rintro ⟨b, hb, hp⟩
      exact ⟨b, hb, by simpa using hp⟩
    · rintro ⟨b, hb, hp⟩
      exact ⟨b, hb, by simpa using hp⟩

/-- C4: removing a title that matches no row returns `false` and leaves the
state (rows, fields, ids, counter) unchanged. -/
theorem remove_book_missing_title_noop (st : LibraryState) (t : String)
    (h : ∀ b ∈ st.books, b.title ≠ t) :
    remove_book st t = (st, false) := by
  have h1 : st.books.filter (fun b => !(b.title == t)) = st.books :=
    List.filter_eq_self.mpr fun b hb => by simp [h b hb]
  have h2 : st.books.countP (fun b => b.title == t) = 0 :=
    List.countP_eq_zero.mpr fun b hb => by simp [h b hb]
  simp only [remove_book, h1, h2]
  rfl

/-- C4, witness: removing the absent title "Missing" from the one-row Dune
library is a no-op returning `false`. -/
theorem remove_book_missing_title_noop_witness :
    remove_book duneSt "Missing" = (duneSt, false) :=
  remove_book_missing_title_noop duneSt "Missing" (by decide)

/-! ### get_statistics: C6 -/

/-- C6: `get_statistics` returns the triple (row count, count of rows with
`read = 1`, percentage `read/total*100` as an exact rational); on an empty
table it returns `(0, 0, 0)` (the zero total is tested before dividing), and
on a one-row table whose row is read it returns `(1, 1, 100)`. -/
theorem get_statistics_spec (st : LibraryState) :
    (get_statistics st).1 = st.books.length ∧
    (get_statistics st).2.1 = st.books.countP (fun b => b.read == 1) ∧
    (st.books = [] → get_statistics st = (0, 0, 0)) ∧
    (∀ b, st.books = [b] → b.read = 1 → get_statistics st = (1, 1, 100)) := by
  refine ⟨rfl, rfl, ?_, ?_⟩
  · intro h
    simp [get_statistics, h]
  · intro b h hb
    simp [get_statistics, h, List.countP_cons, hb]

/-- C6, witness: on the one-row already-read Dune library the statistics are
`(1, 1, 100)`. -/
theorem get_statistics_spec_witness :
    get_statistics duneReadSt = (1, 1, 100) :=
  (get_statistics_spec duneReadSt).2.2.2 _ rfl rfl

/-! ### Well-formedness preservation helpers -/

lemma wf_add (st : LibraryState) (h : WF st) (title author : String) (year : Int)
    (genre : String) (read_status : Bool) :
    WF (add_book st title author year genre read_status) := by
  obtain ⟨hpw, hid, hrd⟩ := h
  simp only [add_book]
  refine ⟨?_, ?_, ?_⟩
  · rw [List.pairwise_append]
    refine ⟨hpw, List.pairwise_singleton _ _, ?_⟩
    intro b hb b' hb'
    simp only [List.mem_singleton] at hb'
    subst hb'
    exact hid b hb
  · intro b hb
    rcases List.mem_append.mp hb with hb | hb
    · exact Nat.lt_succ_of_lt (hid b hb)
    · simp only [List.mem_singleton] at hb
      subst hb
      exact Nat.lt_succ_self _
  · intro b hb
    rcases List.mem_append.mp hb with hb | hb
    · exact hrd b hb
    · simp only [List.mem_singleton] at hb
      subst hb
      cases read_status <;> simp [intOfBool]

lemma wf_remove (st : LibraryState) (h : WF st) (title : String) :
    WF ((remove_book st title).1) := by
  obtain ⟨hpw, hid, hrd⟩ := h
  exact ⟨hpw.sublist (List.filter_sublist _),
    fun b hb => hid b (List.mem_of_mem_filter hb),
    fun b hb => hrd b (List.mem_of_mem_filter hb)⟩

/-- Unfolding `mark_as_read_unread` when a matching row exists: the first
matching row (in rowid order) supplies the old status, every matching row is
rewritten to the complement of that status, and that complement is returned. -/
lemma mark_found (st : LibraryState) (t : String) (row : Book)
    (hf : st.books.find? (fun b => b.title == t) = some row) :
    mark_as_read_unread st t =
      ({ st with books := st.books.map (fun b =>
          if b.title == t then { b with read := 1 - row.read } else b) },
       some (1 - row.read)) := by
  unfold mark_as_read_unread
  rw [hf]

/-- Unfolding `mark_as_read_unread` when no row matches: the state is
untouched and `None` is returned. -/
lemma mark_missing (st : LibraryState) (t : String)
    (hf : st.books.find? (fun b => b.title == t) = none) :
    mark_as_read_unread st t = (st, none) := by
  unfold mark_as_read_unread
  rw [hf]

lemma mark_map_id (st : LibraryState) (t : String) :
    (mark_as_read_unread st t).1.books.map Book.id = st.books.map Book.id := by
  cases hf : st.books.find? (fun b => b.title == t) with
  | none => rw [mark_missing st t hf]
  | some row =>
    rw [mark_found st t row hf]
    simp only [List.map_map]
    refine List.map_congr_left fun b _ => ?_
    by_cases hbt : b.title = t <;> simp [hbt]

lemma mark_nextId (st : LibraryState) (t : String) :
    (mark_as_read_unread st t).1.nextId = st.nextId := by
  cases hf : st.books.find? (fun b => b.title == t) with
  | none => rw [mark_missing st t hf]
  | some row => rw [mark_found st t row hf]

lemma wf_toggle (st : LibraryState) (h : WF st) (t : String) :
    WF ((mark_as_read_unread st t).1) := by
  obtain ⟨hpw, hid, hrd⟩ := h
  cases hf : st.books.find? (fun b => b.title == t) with
  | none =>
    rw [mark_missing st t hf]
    exact ⟨hpw, hid, hrd⟩
  | some row =>
    rw [mark_found st t row hf]
    have hrow : row.read = 0 ∨ row.read = 1 :=
      hrd row (List.mem_of_find?_eq_some hf)
    refine ⟨?_, ?_, ?_⟩
    · rw [List.pairwise_map]
      refine hpw.imp fun {a b} hab => ?_
      by_cases ha : a.title = t <;> by_cases hb : b.title = t <;>
        simp [ha, hb, hab]
    · intro b hb
      obtain ⟨b0, hb0, hbeq⟩ := List.mem_map.mp hb
      subst hbeq
      by_cases hbt : b0.title = t <;> simp [hbt, hid b0 hb0]
    · intro b hb
      obtain ⟨b0, hb0, hbeq⟩ := List.mem_map.mp hb
      subst hbeq
      by_cases hbt : b0.title = t
      · rcases hrow with hr | hr <;> simp [hbt, hr]
      · simp [hbt, hrd b0 hb0]

/-! ### get_library: C7 -/

/-- C7: `get_library` returns every row of the table exactly once (no
duplicates), in list order, which for a well-formed store is strictly
ascending rowid order — the insertion order. -/
theorem get_library_insertion_order (st : LibraryState) (h : WF st) :
    get_library st = st.books ∧
    (get_library st).Pairwise (fun a b => a.id < b.id) ∧
    (get_library st).Nodup := by
  refine ⟨rfl, h.1, ?_⟩
  refine h.1.imp fun {a b} hab heq => ?_
  subst heq
  exact Nat.lt_irrefl _ hab

/-- C7, witness: the one-row Dune library is well-formed and listed in id
order. -/
theorem get_library_insertion_order_witness :
    get_library duneSt = duneSt.books ∧
    (get_library duneSt).Pairwise (fun a b => a.id < b.id) ∧
    (get_library duneSt).Nodup :=
  get_library_insertion_order duneSt (by decide)

/-! ### add_book: C8 -/

/-- C8: on a well-formed store, `add_book` appends exactly one new row whose
fields are exactly the submitted values, with an auto-assigned id distinct
from every existing row's id, leaving every pre-existing row unchanged; the
result is again well-formed, and the two operations that can rewrite or drop
rows never change an assigned id (`mark_as_read_unread` preserves the id
sequence, `remove_book` only deletes whole rows). -/
theorem add_book_fresh_id_appends (st : LibraryState) (h : WF st)
    (title author : String) (year : Int) (genre : String) (read_status : Bool) :
    (add_book st title author year genre read_status).books =
      st.books ++ [⟨st.nextId, title, author, year, genre, intOfBool read_status⟩] ∧
    (∀ b ∈ st.books, b.id ≠ st.nextId) ∧
    WF (add_book st title author year genre read_status) ∧
    (∀ t', (mark_as_read_unread st t').1.books.map Book.id = st.books.map Book.id) ∧
    (∀ t', ((remove_book st t').1.books).Sublist st.books) :=
  ⟨rfl, fun b hb => Nat.ne_of_lt (h.2.1 b hb),
   wf_add st h title author year genre read_status,
   fun t' => mark_map_id st t', fun _ => List.filter_sublist _⟩

/-- C8, witness: adding "Dune" to the one-row Hobbit library. -/
theorem add_book_fresh_id_appends_witness :
    (add_book hobbitSt "Dune" "Herbert" 1965 "Sci-Fi" false).books =
      hobbitSt.books ++ [⟨2, "Dune", "Herbert", 1965, "Sci-Fi", 0⟩] ∧
    (∀ b ∈ hobbitSt.books, b.id ≠ 2) ∧
    WF (add_book hobbitSt "Dune" "Herbert" 1965 "Sci-Fi" false) ∧
    (∀ t', (mark_as_read_unread hobbitSt t').1.books.map Book.id =
      hobbitSt.books.map Book.id) ∧
    (∀ t', ((remove_book hobbitSt t').1.books).Sublist hobbitSt.books) :=
  add_book_fresh_id_appends hobbitSt (by decide) "Dune" "Herbert" 1965 "Sci-Fi" false

/-! ### read-flag invariant: C10 -/

/-- C10: on a well-formed store every row's `read` field is 0 or 1, and each
store operation preserves this: `add_book` writes `int` of the submitted
boolean (0 or 1), `mark_as_read_unread` writes `1 - r` for the 0-or-1 flag
`r` of the first matching row, and `remove_book` writes no field.  Indeed
each operation preserves full well-formedness. -/
theorem read_flag_invariant_preserved (st : LibraryState) (h : WF st)
    (title author : String) (year : Int) (genre : String) (read_status : Bool)
    (t1 t2 : String) :
    (∀ b ∈ (add_book st title author year genre read_status).books,
      b.read = 0 ∨ b.read = 1) ∧
    (∀ b ∈ (remove_book st t1).1.books, b.read = 0 ∨ b.read = 1) ∧
    (∀ b ∈ (mark_as_read_unread st t2).1.books, b.read = 0 ∨ b.read = 1) ∧
    WF (add_book st title author year genre read_status) ∧
    WF ((remove_book st t1).1) ∧
    WF ((mark_as_read_unread st t2).1) :=
  ⟨(wf_add st h title author year genre read_status).2.2,
   (wf_remove st h t1).2.2, (wf_toggle st h t2).2.2,
   wf_add st h title author year genre read_status,
   wf_remove st h t1, wf_toggle st h t2⟩

/-- C10, witness: the invariant holds across the three operations applied to
the duplicate-title library. -/
theorem read_flag_invariant_preserved_witness :
    (∀ b ∈ (add_book dupSt "Emma" "Austen" 1815 "Novel" true).books,
      b.read = 0 ∨ b.read = 1) ∧
    (∀ b ∈ (remove_book dupSt "Dune").1.books, b.read = 0 ∨ b.read = 1) ∧
    (∀ b ∈ (mark_as_read_unread dupSt "Dune").1.books, b.read = 0 ∨ b.read = 1) ∧
    WF (add_book dupSt "Emma" "Austen" 1815 "Novel" true) ∧
    WF ((remove_book dupSt "Dune").1) ∧
    WF ((mark_as_read_unread dupSt "Dune").1) :=
  read_flag_invariant_preserved dupSt (by decide) "Emma" "Austen" 1815 "Novel" true
    "Dune" "Dune"

/-! ### mark_as_read_unread: C1, C2 -/

/-- `find?` on a table with strictly increasing rowids returns the match with
the least id. -/
lemma find?_min_id (l : List Book) (t : String) (row : Book)
    (hpw : l.Pairwise (fun a b => a.id < b.id))
    (hf : l.find? (fun b => b.title == t) = some row) :
    ∀ b ∈ l, b.title = t → row.id ≤ b.id := by
  induction l with
  | nil => simp at hf
  | cons a l ih =>
    rw [List.pairwise_cons] at hpw
    obtain ⟨ha, hpl⟩ := hpw
    by_cases hat : a.title = t
    · rw [List.find?_cons_of_pos _ (by simp [hat])] at hf
      injection hf with hf
      subst hf
      intro b hb hbt
      rcases List.mem_cons.mp hb with rfl | hb
      · exact Nat.le_refl _
      · exact Nat.le_of_lt (ha b hb)
    · rw [List.find?_cons_of_neg _ (by simp [hat])] at hf
      intro b hb hbt
      rcases List.mem_cons.mp hb with rfl | hb
      · exact absurd hbt hat
      · exact ih hpl hf b hb hbt

/-- When a predicate holds for exactly one row of the table, every row
satisfying it is the one `find?` returns. -/
lemma unique_of_countP_one (l : List Book) (p : Book → Bool)
    (h : l.countP p = 1) (row : Book) (hf : l.find? p = some row) :
    ∀ x ∈ l, p x = true → x = row := by
  induction l with
  | nil => simp at hf
  | cons a l ih =>
    by_cases hpa : p a = true
    · rw [List.find?_cons_of_pos _ hpa] at hf
      injection hf with hf
      subst hf
      rw [List.countP_cons, if_pos hpa] at h
      have hl0 : l.countP p = 0 := by omega
      intro x hx hpx
      rcases List.mem_cons.mp hx with rfl | hx
      · rfl
      · exact absurd hpx (List.countP_eq_zero.mp hl0 x hx)
    · rw [List.find?_cons_of_neg _ hpa] at hf
      rw [List.countP_cons, if_neg hpa, Nat.add_zero] at h
      intro x hx hpx
      rcases List.mem_cons.mp hx with rfl | hx
      · exact absurd hpx hpa
      · exact ih h hf x hx hpx

/-- C1, counterexample: on the well-formed store holding two rows both titled
"Dune" and both unread, one call to `mark_as_read_unread "Dune"` changes the
read flag of BOTH rows (from `[0, 0]` to `[1, 1]`), not of exactly one. -/
theorem mark_as_read_unread_duplicate_both_flipped :
    WF dupSt ∧
    dupSt.books.map Book.read = [0, 0] ∧
    (mark_as_read_unread dupSt "Dune").1.books.map Book.read = [1, 1] ∧
    (mark_as_read_unread dupSt "Dune").1.books.map Book.title = ["Dune", "Dune"] := by
  refine ⟨by decide, rfl, by decide, by decide⟩

/-- C1, amended: on a store with ascending rowids, when at least one row
matches the title, `mark_as_read_unread` reads the flag `r` of the FIRST
matching row (the match with the least id), sets the read flag of EVERY row
with that title to `1 - r` (rows whose flag already equals `1 - r` keep their
value; all other fields and all other rows are untouched), and returns
`1 - r`. -/
theorem mark_as_read_unread_updates_all_matching (st : LibraryState)
    (t : String) (row : Book)
    (hpw : st.books.Pairwise (fun a b => a.id < b.id))
    (hf : st.books.find? (fun b => b.title == t) = some row) :
    row ∈ st.books ∧ row.title = t ∧
    (∀ b ∈ st.books, b.title = t → row.id ≤ b.id) ∧
    (mark_as_read_unread st t).2 = some (1 - row.read) ∧
    (mark_as_read_unread st t).1.books =
      st.books.map (fun b =>
        if b.title == t then { b with read := 1 - row.read } else b) ∧
    (mark_as_read_unread st t).1.nextId = st.nextId := by
  refine ⟨List.mem_of_find?_eq_some hf, by simpa using List.find?_some hf,
    find?_min_id st.books t row hpw hf, ?_, ?_, ?_⟩ <;>
    rw [mark_found st t row hf]

/-- C1, witness: the amended statement applied to the duplicate-title store
(first match is the row with id 1, both rows are set to read). -/
theorem mark_as_read_unread_updates_all_matching_witness :
    (⟨1, "Dune", "Herbert", 1965, "Sci-Fi", 0⟩ : Book) ∈ dupSt.books ∧
    (⟨1, "Dune", "Herbert", 1965, "Sci-Fi", 0⟩ : Book).title = "Dune" ∧
    (∀ b ∈ dupSt.books, b.title = "Dune" →
      (⟨1, "Dune", "Herbert", 1965, "Sci-Fi", 0⟩ : Book).id ≤ b.id) ∧
    (mark_as_read_unread dupSt "Dune").2 =
      some (1 - (⟨1, "Dune", "Herbert", 1965, "Sci-Fi", 0⟩ : Book).read) ∧
    (mark_as_read_unread dupSt "Dune").1.books =
      dupSt.books.map (fun b =>
        if b.title == "Dune" then
          { b with read := 1 - (⟨1, "Dune", "Herbert", 1965, "Sci-Fi", 0⟩ : Book).read }
        else b) ∧
    (mark_as_read_unread dupSt "Dune").1.nextId = dupSt.nextId :=
  mark_as_read_unread_updates_all_matching dupSt "Dune"
    ⟨1, "Dune", "Herbert", 1965, "Sci-Fi", 0⟩ (by decide) (by decide)

lemma map_eq_self {l : List Book} {f : Book → Book}
    (h : ∀ b ∈ l, f b = b) : l.map f = l := by
  induction l with
  | nil => rfl
  | cons a l ih =>
    rw [List.map_cons, h a (List.mem_cons_self a l),
      ih fun b hb => h b (List.mem_cons_of_mem a hb)]

/-- C2: when exactly one row matches the title (and its read flag satisfies
the schema's 0/1 constraint), `mark_as_read_unread` replaces that row's flag
`r` by its complement `1 - r`, changes no other field and no other row,
returns the new status, and a second call restores the original state
exactly. -/
theorem mark_as_read_unread_unique_toggle_involutive (st : LibraryState)
    (t : String)
    (h1 : st.books.countP (fun b => b.title == t) = 1)
    (hrd : ∀ b ∈ st.books, b.read = 0 ∨ b.read = 1) :
    ∃ row ∈ st.books, row.title = t ∧ (row.read = 0 ∨ row.read = 1) ∧
      (mark_as_read_unread st t).2 = some (1 - row.read) ∧
      (mark_as_read_unread st t).1.books =
        st.books.map (fun b =>
          if b.title == t then { b with read := 1 - row.read } else b) ∧
      (mark_as_read_unread ((mark_as_read_unread st t).1) t).1 = st := by
  obtain ⟨row, hf⟩ : ∃ row, st.books.find? (fun b => b.title == t) = some row := by
    cases hff : st.books.find? (fun b => b.title == t) with
    | some r => exact ⟨r, rfl⟩
    | none =>
      rw [List.find?_eq_none] at hff
      have h0 : st.books.countP (fun b => b.title == t) = 0 :=
        List.countP_eq_zero.mpr hff
      omega
  have hmem : row ∈ st.books := List.mem_of_find?_eq_some hf
  have htitle : row.title = t := by simpa using List.find?_some hf
  have huniq := unique_of_countP_one st.books _ h1 row hf
  have hmark := mark_found st t row hf
  set f : Book → Book := fun b =>
    if b.title == t then { b with read := 1 - row.read } else b with hfdef
  refine ⟨row, hmem, htitle, hrd row hmem, by rw [hmark], by rw [hmark], ?_⟩
  have step1 : (mark_as_read_unread st t).1 = { st with books := st.books.map f } := by
    rw [hmark]
  rw [step1]
  have hf1 : (st.books.map f).find? (fun b => b.title == t) = some (f row) := by
    rw [List.find?_map]
    have hcomp : ((fun b : Book => b.title == t) ∘ f) =
        fun b : Book => b.title == t := by
      funext b
      by_cases hbt : b.title = t <;> simp [hfdef, hbt]
    rw [hcomp, hf]
    rfl
  have step2 := mark_found { st with books := st.books.map f } t (f row) hf1
  rw [step2]
  have hbooks : (st.books.map f).map (fun b =>
      if b.title == t then { b with read := 1 - (f row).read } else b) = st.books := by
    rw [List.map_map]
    refine map_eq_self fun b hb => ?_
    by_cases hbt : b.title = t
    · have hbrow : b = row := huniq b hb (by simp [hbt])
      subst hbrow
      have h2 : (1 : Int) - (1 - b.read) = b.read := by omega
      simp only [Function.comp, hfdef]
      simp [hbt, h2]
      rw [← hbt]
    · simp [Function.comp, hfdef, hbt]
  rw [hbooks]

/-- C2, witness: toggling the unique "Dune" row returns status 1 and a second
toggle restores the store. -/
theorem mark_as_read_unread_unique_toggle_involutive_witness :
    (mark_as_read_unread ((mark_as_read_unread duneSt "Dune").1) "Dune").1 = duneSt ∧
    (mark_as_read_unread duneSt "Dune").2 = some 1 := by
  obtain ⟨row, hmem, htitle, hread, hret, hbooks, hrt⟩ :=
    mark_as_read_unread_unique_toggle_involutive duneSt "Dune" (by decide) (by decide)
  refine ⟨hrt, ?_⟩
  have hrow : row = ⟨1, "Dune", "Herbert", 1965, "Sci-Fi", 0⟩ := by
    simpa [duneSt] using hmem
  rw [hret, hrow]
  decide
